import Mathlib

set_option linter.unusedVariables false

/-!
Verification of the metric-thread generator (`src/core/metric_threads.py`).

The Python module computes ISO-style thread profile dimensions from
`(diameter, pitch)` and builds external/internal thread solids via helical
sweeps, boolean trims and optional base-cylinder/base-tube fusion.  We embed
the pure profile math over `ℝ` (the Python floats are modelled by real
numbers), the helical wire construction as a parametric curve, and each
generator's sequence of geometry-kernel operations as an explicit list of
operation records transliterated from the source.  Envelope-mode outputs are
additionally modelled as subsets of `ℝ³` so that set/measure statements about
overlap can be made.
-/

namespace MetricThreads

noncomputable section

/-- Source `metric_thread_angle` (line 37): fixed 30 degree half angle. -/
def metric_thread_angle : ℝ := 30

/-- Source `__deg2rad` (line 41): degrees to radians. -/
def deg2rad (degrees : ℝ) : ℝ := degrees * Real.pi / 180

/-- Source `metric_thread_perfect_height` (line 48):
`pitch / (2 * tan(deg2rad(metric_thread_angle())))`. -/
def metric_thread_perfect_height (pitch : ℝ) : ℝ :=
  pitch / (2 * Real.tan (deg2rad metric_thread_angle))

/-- Source `__metric_thread_internal_radius_increase` (line 57):
`0.1 * metric_thread_perfect_height(pitch)`; the `diameter` parameter is
ignored by the source as well. -/
def metric_thread_internal_radius_increase (diameter pitch : ℝ) : ℝ :=
  0.1 * metric_thread_perfect_height pitch

/-- Source `metric_thread_major_radius` (line 61). -/
def metric_thread_major_radius (diameter pitch : ℝ) (internal : Bool := false) : ℝ :=
  (if internal then metric_thread_internal_radius_increase diameter pitch else 0.0)
    + diameter / 2

/-- Source `__metric_thread_effective_ratio` (line 68): constant `0.7`. -/
def metric_thread_effective_ratio : ℝ := 0.7

/-- Source `metric_thread_minor_radius` (line 72). -/
def metric_thread_minor_radius (diameter pitch : ℝ) (internal : Bool := false) : ℝ :=
  metric_thread_major_radius diameter pitch internal
    - metric_thread_effective_ratio * metric_thread_perfect_height pitch

/-- Source `metric_thread_perfect_major_radius` (line 79). -/
def metric_thread_perfect_major_radius (diameter pitch : ℝ) (internal : Bool := false) : ℝ :=
  metric_thread_major_radius diameter pitch internal
    + (1.0 - metric_thread_effective_ratio) * metric_thread_perfect_height pitch / 2

/-- Source `metric_thread_perfect_minor_radius` (line 86). -/
def metric_thread_perfect_minor_radius (diameter pitch : ℝ) (internal : Bool := false) : ℝ :=
  metric_thread_perfect_major_radius diameter pitch internal
    - metric_thread_perfect_height pitch

/-- Source `metric_thread_lead_in` (line 93): evaluated at the fixed probe
diameter `256.0`, exactly as in the source. -/
def metric_thread_lead_in (pitch : ℝ) (internal : Bool := false) : ℝ :=
  Real.tan (deg2rad metric_thread_angle)
    * (metric_thread_major_radius 256.0 pitch internal
        - metric_thread_minor_radius 256.0 pitch internal)

/-- Source `metric_thread_relief` (line 101). -/
def metric_thread_relief (pitch : ℝ) : ℝ :=
  (1.0 - metric_thread_effective_ratio) * pitch / 2

/-! ### Facts about the fixed thread angle -/

lemma deg2rad_angle : deg2rad metric_thread_angle = Real.pi / 6 := by
  unfold deg2rad metric_thread_angle
  ring

lemma sqrt3_sq : Real.sqrt 3 ^ 2 = 3 := Real.sq_sqrt (by norm_num)

lemma tan_thread_angle : Real.tan (deg2rad metric_thread_angle) = Real.sqrt 3 / 3 := by
  rw [deg2rad_angle, Real.tan_pi_div_six]
  have h0 : Real.sqrt 3 ≠ 0 := by positivity
  field_simp

lemma sqrt3_gt : (1.73 : ℝ) < Real.sqrt 3 := by
  nlinarith [sqrt3_sq, Real.sqrt_nonneg 3]

lemma sqrt3_lt : Real.sqrt 3 < (1.74 : ℝ) := by
  nlinarith [sqrt3_sq, Real.sqrt_nonneg 3]

lemma tan_thread_angle_pos : 0 < Real.tan (deg2rad metric_thread_angle) := by
  rw [tan_thread_angle]
  have := sqrt3_gt
  linarith

/-- Closed form of the perfect thread height: `pitch * √3 / 2`. -/
lemma perfect_height_eq (pitch : ℝ) :
    metric_thread_perfect_height pitch = pitch * Real.sqrt 3 / 2 := by
  unfold metric_thread_perfect_height
  rw [tan_thread_angle]
  have h3 : Real.sqrt 3 ≠ 0 := by positivity
  field_simp
  linear_combination (-2 * pitch) * sqrt3_sq

lemma perfect_height_pos {pitch : ℝ} (hp : 0 < pitch) :
    0 < metric_thread_perfect_height pitch := by
  rw [perfect_height_eq]
  have := sqrt3_gt
  nlinarith

/-! ### Trimmed extents and epsilon budging

Both generators begin with the same prologue (source lines 139-146 in
`external_metric_thread` and 286-293 in `internal_metric_thread`): compute
`z_off`, then shift `t_start`/shrink `t_length` for each relief flag that is
set.  We transliterate each generator's copy separately. -/

/-- Source line 139: `z_off = (1.0 - __metric_thread_effective_ratio()) * pitch / 4`. -/
def external_z_off (pitch : ℝ) : ℝ :=
  (1.0 - metric_thread_effective_ratio) * pitch / 4

/-- Source line 286 (identical expression in `internal_metric_thread`). -/
def internal_z_off (pitch : ℝ) : ℝ :=
  (1.0 - metric_thread_effective_ratio) * pitch / 4

/-- Source lines 140, 142-143: `t_start = z_start`, then
`t_start = t_start + 2*z_off` when `bottom_relief`. -/
def external_t_start (z_start pitch : ℝ) (bottom_relief : Bool) : ℝ :=
  if bottom_relief then z_start + 2 * external_z_off pitch else z_start

/-- Source lines 141-146: `t_length = length`, minus `2*z_off` for
`bottom_relief` and again for `top_relief`. -/
def external_t_length (length pitch : ℝ) (bottom_relief top_relief : Bool) : ℝ :=
  let t1 := if bottom_relief then length - 2 * external_z_off pitch else length
  if top_relief then t1 - 2 * external_z_off pitch else t1

/-- Source lines 287, 289-290. -/
def internal_t_start (z_start pitch : ℝ) (bottom_relief : Bool) : ℝ :=
  if bottom_relief then z_start + 2 * internal_z_off pitch else z_start

/-- Source lines 288-293. -/
def internal_t_length (length pitch : ℝ) (bottom_relief top_relief : Bool) : ℝ :=
  let t1 := if bottom_relief then length - 2 * internal_z_off pitch else length
  if top_relief then t1 - 2 * internal_z_off pitch else t1

/-- Source lines 150-156: `epsilon` is `0` unless `use_epsilon`, in which case
it is `(z_off/3) / tan(deg2rad(metric_thread_angle()))`. -/
def external_epsilon (pitch : ℝ) (use_epsilon : Bool) : ℝ :=
  if use_epsilon then (external_z_off pitch / 3) / Real.tan (deg2rad metric_thread_angle)
  else 0

/-- Source lines 151, 155: `inner_r_adj = inner_r - epsilon` (and `inner_r`
when `use_epsilon` is off, since then `epsilon = 0`). -/
def external_inner_r_adj (diameter pitch : ℝ) (use_epsilon : Bool) : ℝ :=
  metric_thread_minor_radius diameter pitch false - external_epsilon pitch use_epsilon

/-- Source lines 152, 156: `inner_z_budge = tan(deg2rad(angle)) * epsilon`
(`0` when `use_epsilon` is off). -/
def external_inner_z_budge (pitch : ℝ) (use_epsilon : Bool) : ℝ :=
  Real.tan (deg2rad metric_thread_angle) * external_epsilon pitch use_epsilon

/-- Source lines 298-303: internal epsilon uses divisor `5`. -/
def internal_epsilon (pitch : ℝ) (use_epsilon : Bool) : ℝ :=
  if use_epsilon then (internal_z_off pitch / 5) / Real.tan (deg2rad metric_thread_angle)
  else 0

/-- Source lines 299, 304: `outer_r_adj = outer_r + epsilon`. -/
def internal_outer_r_adj (diameter pitch : ℝ) (use_epsilon : Bool) : ℝ :=
  metric_thread_major_radius diameter pitch true + internal_epsilon pitch use_epsilon

/-- Source lines 300, 305: `outer_z_budge = tan(deg2rad(angle)) * epsilon`. -/
def internal_outer_z_budge (pitch : ℝ) (use_epsilon : Bool) : ℝ :=
  Real.tan (deg2rad metric_thread_angle) * internal_epsilon pitch use_epsilon

/-! ### The helical sweep wire

`cq.Wire.makeHelix(pitch=P, height=h, radius=r)` produces a right-handed helix
starting at `(r, 0, 0)` and advancing `P` along `z` per turn.  We record the
constructor arguments together with the subsequent `translate`/`rotate` calls
(source lines 168-173 and 317-322), and model the resulting curve
parametrized by the axial coordinate of the raw helix. -/

structure HelixSpec where
  pitch : ℝ
  height : ℝ
  radius : ℝ
  zShift : ℝ
  rotDeg : ℝ

/-- Point of the raw `makeHelix` curve at axial coordinate `z`: the point has
turned `z / P` times from the start point `(r, 0, 0)`. -/
def helixPoint (P r z : ℝ) : ℝ × ℝ × ℝ :=
  (r * Real.cos (2 * Real.pi * z / P), r * Real.sin (2 * Real.pi * z / P), z)

/-- `translate((0,0,dz))` on a point. -/
def translateZpt (dz : ℝ) (v : ℝ × ℝ × ℝ) : ℝ × ℝ × ℝ :=
  (v.1, v.2.1, v.2.2 + dz)

/-- `rotate` about the `z` axis by `angleDegrees` on a point. -/
def rotateZpt (angleDegrees : ℝ) (v : ℝ × ℝ × ℝ) : ℝ × ℝ × ℝ :=
  (v.1 * Real.cos (deg2rad angleDegrees) - v.2.1 * Real.sin (deg2rad angleDegrees),
   v.1 * Real.sin (deg2rad angleDegrees) + v.2.1 * Real.cos (deg2rad angleDegrees),
   v.2.2)

/-- Point of the transformed wire at raw axial coordinate `z`. -/
def wirePoint (w : HelixSpec) (z : ℝ) : ℝ × ℝ × ℝ :=
  rotateZpt w.rotDeg (translateZpt w.zShift (helixPoint w.pitch w.radius z))

/-- Source lines 168-173: the external generator's sweep wire.
`makeHelix(pitch=pitch*n_starts, height=t_length+pitch, radius=inner_r)`,
then `translate((0,0,-pitch/2))` and
`rotate(..., angleDegrees=360*(-pitch/2)/(pitch*n_starts))`. -/
def external_wire (diameter pitch length : ℝ) (n_starts : ℕ)
    (bottom_relief top_relief : Bool) : HelixSpec :=
  { pitch := pitch * n_starts
    height := external_t_length length pitch bottom_relief top_relief + pitch
    radius := metric_thread_minor_radius diameter pitch false
    zShift := -pitch / 2
    rotDeg := 360 * (-pitch / 2) / (pitch * n_starts) }

/-- Source lines 317-322: the internal generator's sweep wire (identical
construction, with the internal minor radius). -/
def internal_wire (diameter pitch length : ℝ) (n_starts : ℕ)
    (bottom_relief top_relief : Bool) : HelixSpec :=
  { pitch := pitch * n_starts
    height := internal_t_length length pitch bottom_relief top_relief + pitch
    radius := metric_thread_minor_radius diameter pitch true
    zShift := -pitch / 2
    rotDeg := 360 * (-pitch / 2) / (pitch * n_starts) }

/-! ### The generator pipelines as operation lists

Each generator is a straight-line sequence of geometry-kernel operations on
the working solid `threads`.  We transliterate that sequence, in source
order, into a list of operation records; every numeric argument of the
corresponding kernel call is carried in the record.  Revolved profile cuts
(lead-ins and chamfers) carry the four `moveTo`/`lineTo` vertices of the cut
wire; the helical sweep carries the wire data and the four profile vertices.
The early-rendered cylinder/tube is additionally rotated about its own axis
by the source (a geometric no-op for a solid of revolution, kept for phase
bookkeeping); the record carries the radius/extents of the placed solid. -/

inductive ThreadOp where
  /-- Envelope branch (source lines 158-165 / 307-314): revolve of the
  rectangle with radial corners `r1`, `r2` spanning `z ∈ [zLo, zHi]`. -/
  | envelopeRevolve (r1 r2 zLo zHi : ℝ) : ThreadOp
  /-- Sweep of the trapezoidal profile `p1-p2-p3-p4` along `wire`. -/
  | sweepProfile (wire : HelixSpec) (p1 p2 p3 p4 : ℝ × ℝ) : ThreadOp
  /-- Union of an additional start, rotated by `angleDeg` about `z`. -/
  | unionStart (angleDeg : ℝ) : ThreadOp
  /-- `rotate` of the whole working solid about `z` by `angleDeg`. -/
  | rotateZ (angleDeg : ℝ) : ThreadOp
  /-- Cut with the oversized square box of side `side` spanning `[zLo, zHi]`. -/
  | cutShave (side zLo zHi : ℝ) : ThreadOp
  /-- Cut with the revolved quadrilateral `p1-p2-p3-p4` (lead-in/chamfer). -/
  | cutRevolved (p1 p2 p3 p4 : ℝ × ℝ) : ThreadOp
  /-- Union with a base cylinder of radius `radius` spanning `[zLo, zHi]`. -/
  | unionCylinder (radius zLo zHi : ℝ) : ThreadOp
  /-- Union with an annular tube, radii `innerR ≤ r ≤ outerR`, `z ∈ [zLo, zHi]`. -/
  | unionTube (outerR innerR zLo zHi : ℝ) : ThreadOp
  /-- `translate((0,0,dz))` of the whole working solid. -/
  | translateZ (dz : ℝ) : ThreadOp

/-- Source lines 184-188 / 331-335: the multi-start replication loop.  Each
iteration rotates the swept start by a further `360/n_starts` degrees and
unions it in, so iteration `k` (counting from `0`) contributes a copy at
angle `(k+1) * 360/n_starts`. -/
def replicate_start_ops (n_starts : ℕ) : List ThreadOp :=
  (List.range (n_starts - 1)).map
    (fun k => ThreadOp.unionStart (((k : ℝ) + 1) * (360 / (n_starts : ℝ))))

/-- Source `external_metric_thread` (lines 120-256) as its sequence of
kernel operations. -/
def external_ops (diameter pitch length z_start : ℝ) (n_starts : ℕ)
    (bottom_lead_in top_lead_in bottom_relief top_relief : Bool)
    (force_outer_radius : ℝ) (use_epsilon base_cylinder : Bool)
    (cyl_extend_bottom cyl_extend_top : ℝ) (envelope : Bool) : List ThreadOp :=
  -- lines 136-137
  let ceb := max 0.0 cyl_extend_bottom
  let cet := max 0.0 cyl_extend_top
  -- lines 139-146
  let z_off := external_z_off pitch
  let t_start := external_t_start z_start pitch bottom_relief
  let t_length := external_t_length length pitch bottom_relief top_relief
  -- lines 147-149
  let outer_r := if force_outer_radius > 0.0 then force_outer_radius
                 else metric_thread_major_radius diameter pitch false
  let inner_r := metric_thread_minor_radius diameter pitch false
  -- lines 150-156
  let inner_r_adj := external_inner_r_adj diameter pitch use_epsilon
  let inner_z_budge := external_inner_z_budge pitch use_epsilon
  -- line 174: d_mid = (major - outer_r) * tan(deg2rad(angle))
  let d_mid := (metric_thread_major_radius diameter pitch false - outer_r)
                 * Real.tan (deg2rad metric_thread_angle)
  -- lead-in wedge data (lines 198-199, 232-233)
  let delta_r := outer_r - inner_r
  let rise := Real.tan (deg2rad metric_thread_angle) * delta_r
  (if envelope then
    -- lines 158-165
    [ThreadOp.envelopeRevolve inner_r_adj outer_r (-pitch) (t_length + pitch)]
  else
    -- lines 168-188
    ThreadOp.sweepProfile
      ⟨pitch * n_starts, t_length + pitch, inner_r, -pitch / 2,
        360 * (-pitch / 2) / (pitch * n_starts)⟩
      (inner_r_adj, -pitch / 2 + z_off - inner_z_budge)
      (outer_r, -(z_off + d_mid))
      (outer_r, z_off + d_mid)
      (inner_r_adj, pitch / 2 - z_off + inner_z_budge)
    :: replicate_start_ops n_starts)
  -- lines 190-195: box of side outer_r*3, height pitch*2, centered, then
  -- translated down by pitch: spans z in [-2*pitch, 0]
  ++ [ThreadOp.cutShave (outer_r * 3) (-(2 * pitch)) 0]
  -- lines 197-207
  ++ (if bottom_lead_in then
        [ThreadOp.cutRevolved
          (inner_r - delta_r, -rise) (outer_r + delta_r, 2 * rise)
          (outer_r + delta_r, -pitch - rise) (inner_r - delta_r, -pitch - rise)]
      else [])
  -- lines 213-225: render_cyl_early
  ++ (if base_cylinder ∧ ¬top_relief ∧ ¬(cet > 0.0) ∧ ¬envelope then
        [ThreadOp.unionCylinder inner_r (-t_start + (z_start - ceb))
          (-t_start + (z_start - ceb) + (length + pitch + ceb))]
      else [])
  -- lines 228-229: the same box translated up by pitch*2 + t_length
  ++ [ThreadOp.cutShave (outer_r * 3) t_length (t_length + 2 * pitch)]
  -- lines 231-241
  ++ (if top_lead_in then
        [ThreadOp.cutRevolved
          (inner_r - delta_r, t_length + rise) (outer_r + delta_r, t_length - 2 * rise)
          (outer_r + delta_r, t_length + pitch + rise)
          (inner_r - delta_r, t_length + pitch + rise)]
      else [])
  -- line 244
  ++ [ThreadOp.translateZ t_start]
  -- lines 245-247
  ++ (if envelope then []
      else [ThreadOp.rotateZ (360 * t_start / (pitch * n_starts))])
  -- lines 216, 249-254: render_cyl_late = base_cylinder and not early
  ++ (if base_cylinder ∧ ¬(base_cylinder ∧ ¬top_relief ∧ ¬(cet > 0.0) ∧ ¬envelope) then
        [ThreadOp.unionCylinder inner_r (z_start - ceb)
          (z_start - ceb + (length + ceb + cet))]
      else [])

/-- Source `internal_metric_thread` (lines 266-412) as its sequence of
kernel operations. -/
def internal_ops (diameter pitch length z_start : ℝ) (n_starts : ℕ)
    (bottom_chamfer top_chamfer bottom_relief top_relief : Bool)
    (use_epsilon : Bool) (base_tube_od tube_extend_bottom tube_extend_top : ℝ)
    (envelope : Bool) : List ThreadOp :=
  -- lines 283-284
  let teb := max 0.0 tube_extend_bottom
  let tet := max 0.0 tube_extend_top
  -- lines 286-293
  let z_off := internal_z_off pitch
  let t_start := internal_t_start z_start pitch bottom_relief
  let t_length := internal_t_length length pitch bottom_relief top_relief
  -- lines 294-297
  let outer_r := metric_thread_major_radius diameter pitch true
  let inner_r := metric_thread_minor_radius diameter pitch true
  -- lines 298-305
  let outer_r_adj := internal_outer_r_adj diameter pitch use_epsilon
  let outer_z_budge := internal_outer_z_budge pitch use_epsilon
  -- chamfer wedge data (lines 349-350, 387-388)
  let delta_r := outer_r - inner_r
  let rise := Real.tan (deg2rad metric_thread_angle) * delta_r
  (if envelope then
    -- lines 307-314
    [ThreadOp.envelopeRevolve outer_r_adj inner_r (-pitch) (t_length + pitch)]
  else
    -- lines 316-338, including the extra phase rotation at lines 336-338
    ThreadOp.sweepProfile
      ⟨pitch * n_starts, t_length + pitch, inner_r, -pitch / 2,
        360 * (-pitch / 2) / (pitch * n_starts)⟩
      (outer_r_adj, -pitch / 2 + z_off - outer_z_budge)
      (inner_r, -z_off)
      (inner_r, z_off)
      (outer_r_adj, pitch / 2 - z_off + outer_z_budge)
    :: (replicate_start_ops n_starts
        ++ [ThreadOp.rotateZ (180 / (n_starts : ℝ))]))
  -- lines 340-346: square_len = max(outer_r*3, base_tube_od*1.125)
  ++ [ThreadOp.cutShave (max (outer_r * 3) (base_tube_od * 1.125)) (-(2 * pitch)) 0]
  -- lines 348-358
  ++ (if bottom_chamfer then
        [ThreadOp.cutRevolved
          (inner_r - delta_r, 2 * rise) (outer_r + delta_r, -rise)
          (outer_r + delta_r, -pitch - rise) (inner_r - delta_r, -pitch - rise)]
      else [])
  -- lines 365-380: render_tube_early
  ++ (if base_tube_od > outer_r * 2 ∧ ¬top_relief ∧ ¬(tet > 0.0) ∧ ¬envelope then
        [ThreadOp.unionTube (base_tube_od / 2) outer_r (-t_start + (z_start - teb))
          (-t_start + (z_start - teb) + (length + pitch + teb))]
      else [])
  -- lines 383-384
  ++ [ThreadOp.cutShave (max (outer_r * 3) (base_tube_od * 1.125)) t_length
        (t_length + 2 * pitch)]
  -- lines 386-396
  ++ (if top_chamfer then
        [ThreadOp.cutRevolved
          (inner_r - delta_r, t_length - 2 * rise) (outer_r + delta_r, t_length + rise)
          (outer_r + delta_r, t_length + pitch + rise)
          (inner_r - delta_r, t_length + pitch + rise)]
      else [])
  -- line 399
  ++ [ThreadOp.translateZ t_start]
  -- lines 400-402
  ++ (if envelope then []
      else [ThreadOp.rotateZ (360 * t_start / (pitch * n_starts))])
  -- lines 369-370, 404-410: render_tube_late = od condition and not early
  ++ (if base_tube_od > outer_r * 2
        ∧ ¬(base_tube_od > outer_r * 2 ∧ ¬top_relief ∧ ¬(tet > 0.0) ∧ ¬envelope) then
        [ThreadOp.unionTube (base_tube_od / 2) outer_r (z_start - teb)
          (z_start - teb + (length + teb + tet))]
      else [])

/-! ### Envelope-mode output as a region of `ℝ³`

In envelope mode each generator revolves a rectangle about the `z` axis
(source lines 158-165 / 307-314), cuts it with the two oversized boxes so
that only `z ∈ [0, t_length]` survives (lines 190-195, 228-229 / 340-346,
383-384), translates it up by `t_start` (line 244 / 399; the phase rotation
at 245-247 / 400-402 is skipped in envelope mode), and finally unions the
late-rendered base cylinder/tube (lines 249-254 / 404-410; the early branch
is disabled in envelope mode by its `not envelope` conjunct).  Lead-in and
chamfer flags are kept at their default `False` here.  The resulting
solids are the following regions. -/

/-- Closed solid of revolution about the `z` axis: radii in
`[rInner, rOuter]`, heights in `[zLo, zHi]`. -/
def revolvedAnnulus (rInner rOuter zLo zHi : ℝ) : Set (ℝ × ℝ × ℝ) :=
  {v | rInner ≤ Real.sqrt (v.1 ^ 2 + v.2.1 ^ 2)
    ∧ Real.sqrt (v.1 ^ 2 + v.2.1 ^ 2) ≤ rOuter
    ∧ zLo ≤ v.2.2 ∧ v.2.2 ≤ zHi}

/-- The solid produced by `external_metric_thread(..., envelope=True)` with
the lead-in flags at their default `False` and the natural outer radius
(`force_outer_radius` at its default `-1.0`). -/
def external_envelope_solid (diameter pitch length z_start : ℝ)
    (bottom_relief top_relief use_epsilon base_cylinder : Bool)
    (cyl_extend_bottom cyl_extend_top : ℝ) : Set (ℝ × ℝ × ℝ) :=
  let ceb := max 0.0 cyl_extend_bottom
  let cet := max 0.0 cyl_extend_top
  let t_start := external_t_start z_start pitch bottom_relief
  let t_length := external_t_length length pitch bottom_relief top_relief
  let outer_r := metric_thread_major_radius diameter pitch false
  let inner_r := metric_thread_minor_radius diameter pitch false
  let inner_r_adj := external_inner_r_adj diameter pitch use_epsilon
  -- annular envelope after both end cuts, translated to t_start
  revolvedAnnulus inner_r_adj outer_r t_start (t_start + t_length)
  -- late base cylinder (lines 249-254); the early branch needs `not envelope`
  ∪ (if base_cylinder then
       revolvedAnnulus 0 inner_r (z_start - ceb) (z_start - ceb + (length + ceb + cet))
     else ∅)

/-- The solid produced by `internal_metric_thread(..., envelope=True)` with
the chamfer flags at their default `False`. -/
def internal_envelope_solid (diameter pitch length z_start : ℝ)
    (bottom_relief top_relief use_epsilon : Bool)
    (base_tube_od tube_extend_bottom tube_extend_top : ℝ) : Set (ℝ × ℝ × ℝ) :=
  let teb := max 0.0 tube_extend_bottom
  let tet := max 0.0 tube_extend_top
  let t_start := internal_t_start z_start pitch bottom_relief
  let t_length := internal_t_length length pitch bottom_relief top_relief
  let outer_r := metric_thread_major_radius diameter pitch true
  let inner_r := metric_thread_minor_radius diameter pitch true
  let outer_r_adj := internal_outer_r_adj diameter pitch use_epsilon
  revolvedAnnulus inner_r outer_r_adj t_start (t_start + t_length)
  -- late base tube (lines 404-410), rendered only when its outer diameter
  -- exceeds the thread's outer diameter (lines 365-370)
  ∪ (if base_tube_od > outer_r * 2 then
       revolvedAnnulus outer_r (base_tube_od / 2)
         (z_start - teb) (z_start - teb + (length + teb + tet))
     else ∅)

/-! ## Claim theorems -/

/-- **C3.** For every `diameter > 0` and `pitch > 0`:
`metric_thread_minor_radius(d, p, false) < metric_thread_major_radius(d, p, false)`,
and `metric_thread_major_radius(d, p, true) > metric_thread_major_radius(d, p, false)`:
internal threads are radius-enlarged by a fixed fraction of thread height, and
the minor radius is always strictly less than the major radius. -/
theorem c3_radius_ordering (d p : ℝ) (hd : 0 < d) (hp : 0 < p) :
    metric_thread_minor_radius d p false < metric_thread_major_radius d p false
    ∧ metric_thread_major_radius d p false < metric_thread_major_radius d p true := by
  have h := perfect_height_pos hp
  constructor
  · unfold metric_thread_minor_radius metric_thread_effective_ratio
    nlinarith
  · unfold metric_thread_major_radius metric_thread_internal_radius_increase
    simp only [if_true, if_false, Bool.false_eq_true, ite_true, ite_false]
    nlinarith

/-- Witness for C3 at `(diameter, pitch) = (3, 0.5)`. -/
theorem c3_radius_ordering_witness :
    (0:ℝ) < 3 ∧ (0:ℝ) < 0.5
    ∧ (metric_thread_minor_radius 3 0.5 false < metric_thread_major_radius 3 0.5 false
       ∧ metric_thread_major_radius 3 0.5 false < metric_thread_major_radius 3 0.5 true) :=
  ⟨by norm_num, by norm_num, c3_radius_ordering 3 0.5 (by norm_num) (by norm_num)⟩

/-- **C9.** For every `diameter > 0`, `pitch > 0` and each internal flag `i`,
`metric_thread_perfect_minor_radius(d, p, i)
  = metric_thread_perfect_major_radius(d, p, i) - metric_thread_perfect_height(p)`,
as an exact equation. -/
theorem c9_perfect_minor_radius_eq (d p : ℝ) (hd : 0 < d) (hp : 0 < p) (i : Bool) :
    metric_thread_perfect_minor_radius d p i
      = metric_thread_perfect_major_radius d p i - metric_thread_perfect_height p := rfl

/-- Witness for C9 at `(diameter, pitch, internal) = (3, 0.5, true)`. -/
theorem c9_perfect_minor_radius_eq_witness :
    (0:ℝ) < 3 ∧ (0:ℝ) < 0.5
    ∧ metric_thread_perfect_minor_radius 3 0.5 true
        = metric_thread_perfect_major_radius 3 0.5 true - metric_thread_perfect_height 0.5 :=
  ⟨by norm_num, by norm_num, c9_perfect_minor_radius_eq 3 0.5 (by norm_num) (by norm_num) true⟩

/-- **C6.** The lead-in run is diameter-independent: for every `pitch > 0`,
every `diameter > 0` and each internal flag,
`metric_thread_lead_in(pitch, internal)
  = tan(30°) * (metric_thread_major_radius(d, pitch, internal)
                 - metric_thread_minor_radius(d, pitch, internal))`,
i.e. the fixed probe diameter `256` used by the source gives the same value
as any other diameter. -/
theorem c6_lead_in_diameter_independent (d p : ℝ) (hp : 0 < p) (hd : 0 < d) (i : Bool) :
    metric_thread_lead_in p i
      = Real.tan (deg2rad metric_thread_angle)
          * (metric_thread_major_radius d p i - metric_thread_minor_radius d p i) := by
  unfold metric_thread_lead_in metric_thread_minor_radius
  ring

/-- Witness for C6 at `(pitch, diameter, internal) = (0.5, 7, true)`. -/
theorem c6_lead_in_diameter_independent_witness :
    (0:ℝ) < 0.5 ∧ (0:ℝ) < 7
    ∧ metric_thread_lead_in 0.5 true
        = Real.tan (deg2rad metric_thread_angle)
            * (metric_thread_major_radius 7 0.5 true - metric_thread_minor_radius 7 0.5 true) :=
  ⟨by norm_num, by norm_num,
    c6_lead_in_diameter_independent 7 0.5 (by norm_num) (by norm_num) true⟩

/-- **C4.** In both generators, the trimmed extent is computed as
`zOffset = (1-0.7)*pitch/4`; `t_start` is `z_start` plus `2*zOffset` when the
bottom relief flag is set (unchanged otherwise); `t_length` is `length` minus
`2*zOffset` for each relief flag set, so a set relief flag shortens the
threaded region by `2*zOffset` on that end. -/
theorem c4_trimmed_extent (z_start length pitch : ℝ) (bottom_relief top_relief : Bool) :
    external_z_off pitch = (1 - 0.7) * pitch / 4
    ∧ internal_z_off pitch = (1 - 0.7) * pitch / 4
    ∧ external_t_start z_start pitch bottom_relief
        = z_start + (if bottom_relief then 2 * external_z_off pitch else 0)
    ∧ external_t_length length pitch bottom_relief top_relief
        = length - (if bottom_relief then 2 * external_z_off pitch else 0)
          - (if top_relief then 2 * external_z_off pitch else 0)
    ∧ internal_t_start z_start pitch bottom_relief
        = z_start + (if bottom_relief then 2 * internal_z_off pitch else 0)
    ∧ internal_t_length length pitch bottom_relief top_relief
        = length - (if bottom_relief then 2 * internal_z_off pitch else 0)
          - (if top_relief then 2 * internal_z_off pitch else 0) := by
  cases bottom_relief <;> cases top_relief <;>
    norm_num [external_z_off, internal_z_off, external_t_start, external_t_length,
      internal_t_start, internal_t_length, metric_thread_effective_ratio]

/-- **C2** (the failing input): with both relief flags set and
`length = 0.05 < 2*zOffset = 0.075` at `pitch = 0.5`, both generators compute
a negative trimmed length `t_length = -0.1` and continue; nothing rejects or
clamps. -/
theorem c2_negative_trimmed_length :
    (0:ℝ) < 0.05 ∧ (0.05:ℝ) < 2 * external_z_off 0.5
    ∧ (0.05:ℝ) < 2 * internal_z_off 0.5
    ∧ external_t_length 0.05 0.5 true true = -0.1
    ∧ internal_t_length 0.05 0.5 true true = -0.1 := by
  unfold external_t_length internal_t_length external_z_off internal_z_off
    metric_thread_effective_ratio
  norm_num

/-- The transformed sweep wire passes through axial position `0` at angular
phase `0`: its point at raw axial coordinate `pitch/2` is `(radius, 0, 0)`. -/
lemma wirePoint_phase (w : HelixSpec) (p : ℝ) (hz : w.zShift = -p / 2)
    (hr : w.rotDeg = 360 * (-p / 2) / w.pitch) :
    wirePoint w (p / 2) = (w.radius, 0, 0) := by
  unfold wirePoint rotateZpt translateZpt helixPoint
  have hθ : deg2rad w.rotDeg = -(2 * Real.pi * (p / 2) / w.pitch) := by
    rw [hr]; unfold deg2rad; ring
  rw [hθ, hz, Real.cos_neg, Real.sin_neg, Prod.mk.injEq, Prod.mk.injEq]
  refine ⟨?_, ?_, by ring⟩
  · linear_combination
      w.radius * Real.sin_sq_add_cos_sq (2 * Real.pi * (p / 2) / w.pitch)
  · ring

/-- **C5.** In both generators, in non-envelope mode, the sweep path is a
single helix whose pitch parameter is `pitch * n_starts`, whose height is the
trimmed length plus one pitch, and whose radius is the exact
(epsilon-unadjusted) minor radius for the internal/external case, translated
down by `pitch/2` along `z` and rotated by `360*(-pitch/2)/(pitch*n_starts)`
degrees, so that the curve's point at axial position `0` has angular phase
`0` (it is `(radius, 0, 0)`). -/
theorem c5_sweep_wire (d p L : ℝ) (n : ℕ) (bR tR : Bool) :
    (external_wire d p L n bR tR).pitch = p * n
    ∧ (external_wire d p L n bR tR).height = external_t_length L p bR tR + p
    ∧ (external_wire d p L n bR tR).radius = metric_thread_minor_radius d p false
    ∧ (external_wire d p L n bR tR).zShift = -p / 2
    ∧ (external_wire d p L n bR tR).rotDeg = 360 * (-p / 2) / (p * n)
    ∧ wirePoint (external_wire d p L n bR tR) (p / 2)
        = (metric_thread_minor_radius d p false, 0, 0)
    ∧ (internal_wire d p L n bR tR).pitch = p * n
    ∧ (internal_wire d p L n bR tR).height = internal_t_length L p bR tR + p
    ∧ (internal_wire d p L n bR tR).radius = metric_thread_minor_radius d p true
    ∧ (internal_wire d p L n bR tR).zShift = -p / 2
    ∧ (internal_wire d p L n bR tR).rotDeg = 360 * (-p / 2) / (p * n)
    ∧ wirePoint (internal_wire d p L n bR tR) (p / 2)
        = (metric_thread_minor_radius d p true, 0, 0) :=
  ⟨rfl, rfl, rfl, rfl, rfl, wirePoint_phase _ p rfl rfl,
   rfl, rfl, rfl, rfl, rfl, wirePoint_phase _ p rfl rfl⟩

/-! ### Observers on the operation pipeline -/

/-- Is the operation one of the oversized end trims? -/
def isEndTrim : ThreadOp → Bool
  | .cutShave _ _ _ => true
  | _ => false

/-- The rotation angle carried by a whole-solid `rotate`, if any. -/
def rotAngleOf : ThreadOp → Option ℝ
  | .rotateZ a => some a
  | _ => none

/-- The whole-solid rotations a pipeline applies before its first end trim. -/
def rotationsBeforeTrim (l : List ThreadOp) : List ℝ :=
  (l.takeWhile fun op => !isEndTrim op).filterMap rotAngleOf

/-- Is the operation a base-tube union? -/
def isTubeUnion : ThreadOp → Bool
  | .unionTube _ _ _ _ => true
  | _ => false

/-- Number of base-tube unions a pipeline performs. -/
def tubeUnionCount (l : List ThreadOp) : ℕ := l.countP isTubeUnion

lemma takeWhile_append_all {α} (p : α → Bool) {l1 l2 : List α}
    (h : ∀ a ∈ l1, p a = true) :
    (l1 ++ l2).takeWhile p = l1 ++ l2.takeWhile p := by
  induction l1 with
  | nil => simp
  | cons a l ih =>
      rw [List.cons_append, List.takeWhile_cons_of_pos (h a (by simp)),
        ih fun x hx => h x (by simp [hx]), List.cons_append]

lemma replicate_start_ops_shape {n : ℕ} {x : ThreadOp}
    (hx : x ∈ replicate_start_ops n) : ∃ a, x = ThreadOp.unionStart a := by
  unfold replicate_start_ops at hx
  obtain ⟨k, -, rfl⟩ := List.mem_map.mp hx
  exact ⟨_, rfl⟩

lemma replicate_start_ops_no_trim {n : ℕ} {x : ThreadOp}
    (hx : x ∈ replicate_start_ops n) : (!isEndTrim x) = true := by
  obtain ⟨a, rfl⟩ := replicate_start_ops_shape hx
  rfl

lemma replicate_start_ops_no_rot {n : ℕ} {x : ThreadOp}
    (hx : x ∈ replicate_start_ops n) : rotAngleOf x = none := by
  obtain ⟨a, rfl⟩ := replicate_start_ops_shape hx
  rfl

lemma filterMap_rot_replicate (n : ℕ) :
    (replicate_start_ops n).filterMap rotAngleOf = [] := by
  rw [List.filterMap_eq_nil_iff]
  exact fun x hx => replicate_start_ops_no_rot hx

/-- **C7.** In the internal generator, in non-envelope mode, exactly one extra
rotation — of `180/n_starts` degrees about the `z` axis — is applied to the
threads after the multi-start replication loop and before the end trims, for
every `n_starts ≥ 1`; the external generator applies no rotation to the
threads before its end trims. -/
theorem c7_internal_phase_rotation (d p L zs : ℝ) (n : ℕ) (hn : 1 ≤ n)
    (blw tlw br tr bch tch ue bc : Bool) (for_r ceb cet od teb tet : ℝ) :
    rotationsBeforeTrim (internal_ops d p L zs n bch tch br tr ue od teb tet false)
        = [180 / (n : ℝ)]
    ∧ rotationsBeforeTrim (external_ops d p L zs n blw tlw br tr for_r ue bc ceb cet false)
        = [] := by
  constructor
  · simp only [internal_ops, rotationsBeforeTrim, Bool.false_eq_true, if_false,
      List.append_assoc, List.singleton_append, List.cons_append, List.nil_append]
    rw [List.takeWhile_cons_of_pos (by rfl),
      takeWhile_append_all _ (fun x hx => replicate_start_ops_no_trim hx),
      List.takeWhile_cons_of_pos (by rfl),
      List.takeWhile_cons_of_neg (by simp [isEndTrim])]
    simp [List.filterMap_append, filterMap_rot_replicate, rotAngleOf]
  · simp only [external_ops, rotationsBeforeTrim, Bool.false_eq_true, if_false,
      List.append_assoc, List.singleton_append, List.cons_append, List.nil_append]
    rw [List.takeWhile_cons_of_pos (by rfl),
      takeWhile_append_all _ (fun x hx => replicate_start_ops_no_trim hx),
      List.takeWhile_cons_of_neg (by simp [isEndTrim])]
    simp [List.filterMap_append, filterMap_rot_replicate, rotAngleOf]

/-- Witness for C7 at a concrete spec with `n_starts = 2`. -/
theorem c7_internal_phase_rotation_witness :
    1 ≤ 2
    ∧ (rotationsBeforeTrim
          (internal_ops 3 0.5 1.5 0 2 false false false false true (-1) (-1) (-1) false)
          = [180 / (2 : ℝ)]
       ∧ rotationsBeforeTrim
           (external_ops 3 0.5 1.5 0 2 false false false false (-1) true true (-1) (-1) false)
           = []) :=
  ⟨by norm_num,
    c7_internal_phase_rotation 3 0.5 1.5 0 2 (by norm_num)
      false false false false false false true true (-1) (-1) (-1) (-1) (-1) (-1)⟩

lemma tubeUnionCount_replicate (n : ℕ) :
    (replicate_start_ops n).countP isTubeUnion = 0 := by
  rw [List.countP_eq_zero]
  intro x hx
  obtain ⟨a, rfl⟩ := replicate_start_ops_shape hx
  simp [isTubeUnion]

/-- Closed form of the internal major radius at the C8 scenario numbers. -/
lemma major_radius_3_05_internal :
    metric_thread_major_radius 3 0.5 true = 1.5 + 0.025 * Real.sqrt 3 := by
  unfold metric_thread_major_radius metric_thread_internal_radius_increase
  rw [perfect_height_eq]
  norm_num
  ring

/-- **C8.** In the internal generator, the annular base tube is unioned into
the result exactly once (early or late) if and only if
`base_tube_od > 2 * metric_thread_major_radius(diameter, pitch, true)`;
otherwise no tube is rendered.  In particular, for
`diameter=3.0, pitch=0.5, base_tube_od=4.5` (the documented scenario, with
`length=1.5` and `bottom_chamfer`) the tube is rendered. -/
theorem c8_base_tube_rendering :
    (∀ (d p L zs : ℝ) (n : ℕ) (bch tch br tr ue : Bool) (od teb tet : ℝ) (env : Bool),
      tubeUnionCount (internal_ops d p L zs n bch tch br tr ue od teb tet env)
        = if od > metric_thread_major_radius d p true * 2 then 1 else 0)
    ∧ tubeUnionCount
        (internal_ops 3 0.5 1.5 0 1 true false false false true 4.5 (-1) (-1) false)
        = 1 := by
  have hmain : ∀ (d p L zs : ℝ) (n : ℕ) (bch tch br tr ue : Bool) (od teb tet : ℝ)
      (env : Bool),
      tubeUnionCount (internal_ops d p L zs n bch tch br tr ue od teb tet env)
        = if od > metric_thread_major_radius d p true * 2 then 1 else 0 := by
    intro d p L zs n bch tch br tr ue od teb tet env
    simp only [internal_ops, tubeUnionCount, List.countP_append, List.countP_cons,
      List.countP_nil, apply_ite (List.countP isTubeUnion), tubeUnionCount_replicate,
      isTubeUnion]
    split_ifs <;> simp_all
  refine ⟨hmain, ?_⟩
  rw [hmain, if_pos]
  rw [major_radius_3_05_internal]
  nlinarith [sqrt3_lt, sqrt3_gt]

/-- **C10.** Both generators clamp each base-feature extension parameter to
zero on entry (`max(0.0, ·)`), independently of the other parameters: for
every otherwise-identical spec, replacing any single negative extension value
(such as the defaults `-1.0`) by `0` — while the other extension keeps its
arbitrary, possibly nonnegative, value — produces exactly the same pipeline
and the same envelope-mode solid. -/
theorem c10_negative_extensions_clamped
    (d p L zs : ℝ) (n : ℕ) (blw tlw br tr bch tch ue bc : Bool)
    (for_r od : ℝ) (env : Bool) (ceb cet teb tet : ℝ) :
    (ceb < 0 →
      external_ops d p L zs n blw tlw br tr for_r ue bc ceb cet env
          = external_ops d p L zs n blw tlw br tr for_r ue bc 0 cet env
      ∧ external_envelope_solid d p L zs br tr ue bc ceb cet
          = external_envelope_solid d p L zs br tr ue bc 0 cet)
    ∧ (cet < 0 →
      external_ops d p L zs n blw tlw br tr for_r ue bc ceb cet env
          = external_ops d p L zs n blw tlw br tr for_r ue bc ceb 0 env
      ∧ external_envelope_solid d p L zs br tr ue bc ceb cet
          = external_envelope_solid d p L zs br tr ue bc ceb 0)
    ∧ (teb < 0 →
      internal_ops d p L zs n bch tch br tr ue od teb tet env
          = internal_ops d p L zs n bch tch br tr ue od 0 tet env
      ∧ internal_envelope_solid d p L zs br tr ue od teb tet
          = internal_envelope_solid d p L zs br tr ue od 0 tet)
    ∧ (tet < 0 →
      internal_ops d p L zs n bch tch br tr ue od teb tet env
          = internal_ops d p L zs n bch tch br tr ue od teb 0 env
      ∧ internal_envelope_solid d p L zs br tr ue od teb tet
          = internal_envelope_solid d p L zs br tr ue od teb 0) := by
  have h0 : (0.0 : ℝ) = 0 := by norm_num
  refine ⟨fun h => ?_, fun h => ?_, fun h => ?_, fun h => ?_⟩
  · have h1 : max (0.0:ℝ) ceb = max 0.0 (0:ℝ) := by
      rw [h0, max_eq_left h.le, max_self]
    exact ⟨by simp only [external_ops, h1], by simp only [external_envelope_solid, h1]⟩
  · have h1 : max (0.0:ℝ) cet = max 0.0 (0:ℝ) := by
      rw [h0, max_eq_left h.le, max_self]
    exact ⟨by simp only [external_ops, h1], by simp only [external_envelope_solid, h1]⟩
  · have h1 : max (0.0:ℝ) teb = max 0.0 (0:ℝ) := by
      rw [h0, max_eq_left h.le, max_self]
    exact ⟨by simp only [internal_ops, h1], by simp only [internal_envelope_solid, h1]⟩
  · have h1 : max (0.0:ℝ) tet = max 0.0 (0:ℝ) := by
      rw [h0, max_eq_left h.le, max_self]
    exact ⟨by simp only [internal_ops, h1], by simp only [internal_envelope_solid, h1]⟩

/-- Witness for C10 at a concrete spec with mixed-sign extensions: the
external bottom extension is the default `-1.0` while the top extension is
the nonnegative `2`, and the internal top extension is `-1.0` while the
bottom extension is the nonnegative `3`. -/
theorem c10_negative_extensions_clamped_witness :
    (-1 : ℝ) < 0
    ∧ (external_ops 3 0.5 2 0 1 false false false false (-1) true true (-1) 2 false
         = external_ops 3 0.5 2 0 1 false false false false (-1) true true 0 2 false
       ∧ external_envelope_solid 3 0.5 2 0 false false true true (-1) 2
           = external_envelope_solid 3 0.5 2 0 false false true true 0 2)
    ∧ (internal_ops 3 0.5 2 0 1 false false false false true 4.5 3 (-1) false
         = internal_ops 3 0.5 2 0 1 false false false false true 4.5 3 0 false
       ∧ internal_envelope_solid 3 0.5 2 0 false false true 4.5 3 (-1)
           = internal_envelope_solid 3 0.5 2 0 false false true 4.5 3 0) :=
  ⟨by norm_num,
    (c10_negative_extensions_clamped 3 0.5 2 0 1 false false false false false false
      true true (-1) 4.5 false (-1) 2 3 (-1)).1 (by norm_num),
    (c10_negative_extensions_clamped 3 0.5 2 0 1 false false false false false false
      true true (-1) 4.5 false (-1) 2 3 (-1)).2.2.2 (by norm_num)⟩

/-! ### C1: the envelope solids of a matching thread pair -/

lemma external_epsilon_nonneg {p : ℝ} (hp : 0 < p) (u : Bool) :
    0 ≤ external_epsilon p u := by
  unfold external_epsilon external_z_off metric_thread_effective_ratio
  have ht := tan_thread_angle_pos
  split
  · positivity
  · exact le_refl 0

lemma internal_epsilon_nonneg {p : ℝ} (hp : 0 < p) (u : Bool) :
    0 ≤ internal_epsilon p u := by
  unfold internal_epsilon internal_z_off metric_thread_effective_ratio
  have ht := tan_thread_angle_pos
  split
  · positivity
  · exact le_refl 0

/-- The external envelope's inner radius sits below the internal thread's
minor radius (by the clearance increase plus the external epsilon budge). -/
lemma ext_inner_le_int_minor {d p : ℝ} (hp : 0 < p) :
    external_inner_r_adj d p true ≤ metric_thread_minor_radius d p true := by
  have hh := (perfect_height_pos hp).le
  have hε := external_epsilon_nonneg hp true
  unfold external_inner_r_adj metric_thread_minor_radius metric_thread_major_radius
    metric_thread_internal_radius_increase
  norm_num
  nlinarith

/-- The external major radius sits below the internal envelope's (budged)
outer radius. -/
lemma ext_major_le_int_outer {d p : ℝ} (hp : 0 < p) :
    metric_thread_major_radius d p false ≤ internal_outer_r_adj d p true := by
  have hh := (perfect_height_pos hp).le
  have hε := internal_epsilon_nonneg hp true
  unfold internal_outer_r_adj metric_thread_major_radius
    metric_thread_internal_radius_increase
  norm_num
  nlinarith

/-- **C1 (amended).** For equal `(diameter, pitch)` with positive diameter,
pitch and length, the external and internal envelope-mode solids (default
flags, zero relative transform) overlap rather than being disjoint: their
intersection contains the whole annular band between the internal minor
radius and the external major radius over the axial range `[0, length]` — a
band of radial width `0.6 * metric_thread_perfect_height pitch` — and in
particular is nonempty. -/
theorem c1_amended_envelopes_overlap (d p L : ℝ) (hd : 0 < d) (hp : 0 < p) (hL : 0 < L) :
    revolvedAnnulus (metric_thread_minor_radius d p true)
        (metric_thread_major_radius d p false) 0 L
      ⊆ external_envelope_solid d p L 0 false false true true (-1) (-1)
        ∩ internal_envelope_solid d p L 0 false false true (-1) (-1) (-1)
    ∧ (external_envelope_solid d p L 0 false false true true (-1) (-1)
        ∩ internal_envelope_solid d p L 0 false false true (-1) (-1) (-1)).Nonempty := by
  have hh := perfect_height_pos hp
  have hsub : revolvedAnnulus (metric_thread_minor_radius d p true)
      (metric_thread_major_radius d p false) 0 L
      ⊆ external_envelope_solid d p L 0 false false true true (-1) (-1)
        ∩ internal_envelope_solid d p L 0 false false true (-1) (-1) (-1) := by
    intro v hv
    obtain ⟨h1, h2, h3, h4⟩ := hv
    constructor
    · refine Set.mem_union_left _ ?_
      refine ⟨le_trans (ext_inner_le_int_minor hp) h1, h2, ?_, ?_⟩
      · simpa [external_t_start] using h3
      · simpa [external_t_start, external_t_length] using h4
    · refine Set.mem_union_left _ ?_
      refine ⟨h1, le_trans h2 (ext_major_le_int_outer hp), ?_, ?_⟩
      · simpa [internal_t_start] using h3
      · simpa [internal_t_start, internal_t_length] using h4
  refine ⟨hsub, ⟨(d / 2, 0, L / 2), hsub ?_⟩⟩
  have hd2 : (0:ℝ) ≤ d / 2 := by linarith
  have hs : Real.sqrt ((d / 2) ^ 2 + 0 ^ 2) = d / 2 := by
    rw [show (d / 2) ^ 2 + 0 ^ 2 = (d / 2) ^ 2 by ring, Real.sqrt_sq hd2]
  refine ⟨?_, ?_, by linarith, by linarith⟩
  · show metric_thread_minor_radius d p true ≤ Real.sqrt ((d / 2) ^ 2 + 0 ^ 2)
    rw [hs]
    unfold metric_thread_minor_radius metric_thread_major_radius
      metric_thread_internal_radius_increase metric_thread_effective_ratio
    norm_num
    nlinarith
  · show Real.sqrt ((d / 2) ^ 2 + 0 ^ 2) ≤ metric_thread_major_radius d p false
    rw [hs]
    unfold metric_thread_major_radius
    norm_num

/-- Witness for the amended C1 at `(diameter, pitch, length) = (3, 0.5, 1)`. -/
theorem c1_amended_envelopes_overlap_witness :
    (0:ℝ) < 3 ∧ (0:ℝ) < 0.5 ∧ (0:ℝ) < 1
    ∧ (revolvedAnnulus (metric_thread_minor_radius 3 0.5 true)
          (metric_thread_major_radius 3 0.5 false) 0 1
        ⊆ external_envelope_solid 3 0.5 1 0 false false true true (-1) (-1)
          ∩ internal_envelope_solid 3 0.5 1 0 false false true (-1) (-1) (-1)
      ∧ (external_envelope_solid 3 0.5 1 0 false false true true (-1) (-1)
          ∩ internal_envelope_solid 3 0.5 1 0 false false true (-1) (-1) (-1)).Nonempty) :=
  ⟨by norm_num, by norm_num, by norm_num,
    c1_amended_envelopes_overlap 3 0.5 1 (by norm_num) (by norm_num) (by norm_num)⟩

/-! Numeric bounds at the counterexample spec `(diameter, pitch) = (3, 0.5)`. -/

lemma ext_inner_r_adj_le_3_05 : external_inner_r_adj 3 0.5 true ≤ 1.25 := by
  have hε := external_epsilon_nonneg (by norm_num : (0:ℝ) < 0.5) true
  have hm : metric_thread_minor_radius 3 0.5 false ≤ 1.25 := by
    unfold metric_thread_minor_radius metric_thread_major_radius
      metric_thread_effective_ratio
    rw [perfect_height_eq]
    norm_num
    nlinarith [sqrt3_gt]
  unfold external_inner_r_adj
  linarith

lemma ext_major_3_05 : metric_thread_major_radius 3 0.5 false = 1.5 := by
  unfold metric_thread_major_radius
  norm_num

lemma int_minor_le_3_05 : metric_thread_minor_radius 3 0.5 true ≤ 1.25 := by
  unfold metric_thread_minor_radius metric_thread_major_radius
    metric_thread_internal_radius_increase metric_thread_effective_ratio
  rw [perfect_height_eq]
  norm_num
  nlinarith [sqrt3_gt]

lemma int_outer_ge_3_05 : (1.5:ℝ) ≤ internal_outer_r_adj 3 0.5 true := by
  have hε := internal_epsilon_nonneg (by norm_num : (0:ℝ) < 0.5) true
  unfold internal_outer_r_adj
  rw [major_radius_3_05_internal]
  nlinarith [sqrt3_gt]

lemma eps_sum_lt_3_05 :
    external_epsilon 0.5 true + internal_epsilon 0.5 true < 0.075 := by
  unfold external_epsilon internal_epsilon external_z_off internal_z_off
    metric_thread_effective_ratio
  simp only [tan_thread_angle, if_true]
  have h3 : (0:ℝ) < Real.sqrt 3 := by positivity
  have h0 : Real.sqrt 3 ≠ 0 := ne_of_gt h3
  rw [show ((1.0:ℝ) - 0.7) * 0.5 / 4 / 3 / (Real.sqrt 3 / 3)
      + (1.0 - 0.7) * 0.5 / 4 / 5 / (Real.sqrt 3 / 3) = 0.06 / Real.sqrt 3 from by
    field_simp
    ring]
  rw [div_lt_iff₀ h3]
  nlinarith [sqrt3_gt]

/-- **C1 (counterexample).** The claim — that for every matching pair of
positive `(diameter, pitch, length)` the envelope-mode external and internal
solids have empty intersection, or one of volume at most the epsilon-budge
magnitude — is false: at `(diameter, pitch, length) = (3, 0.5, 1)` the
intersection contains the box `[1.25, 1.4] × [0, 0.5] × [0, 1]` of volume
`0.075`, which exceeds the combined epsilon-budge magnitude
`external_epsilon + internal_epsilon ≈ 0.035`. -/
theorem c1_counterexample :
    ¬ (∀ d p L : ℝ, 0 < d → 0 < p → 0 < L →
        external_envelope_solid d p L 0 false false true true (-1) (-1)
            ∩ internal_envelope_solid d p L 0 false false true (-1) (-1) (-1) = ∅
          ∨ MeasureTheory.volume
              (external_envelope_solid d p L 0 false false true true (-1) (-1)
                ∩ internal_envelope_solid d p L 0 false false true (-1) (-1) (-1))
              ≤ ENNReal.ofReal (external_epsilon p true + internal_epsilon p true)) := by
  intro hcl
  have hBsub : (Set.Icc (1.25:ℝ) 1.4 ×ˢ Set.Icc (0:ℝ) 0.5 ×ˢ Set.Icc (0:ℝ) 1)
      ⊆ external_envelope_solid 3 0.5 1 0 false false true true (-1) (-1)
        ∩ internal_envelope_solid 3 0.5 1 0 false false true (-1) (-1) (-1) := by
    intro v hv
    obtain ⟨hx, hy, hz⟩ := hv
    rw [Set.mem_Icc] at hx hy hz
    have hs_lo : (1.25:ℝ) ≤ Real.sqrt (v.1 ^ 2 + v.2.1 ^ 2) :=
      Real.le_sqrt_of_sq_le (by nlinarith [hx.1, hx.2, hy.1, hy.2])
    have hs_hi : Real.sqrt (v.1 ^ 2 + v.2.1 ^ 2) ≤ 1.5 :=
      Real.sqrt_le_iff.mpr ⟨by norm_num, by nlinarith [hx.1, hx.2, hy.1, hy.2]⟩
    constructor
    · refine Set.mem_union_left _ ?_
      refine ⟨le_trans ext_inner_r_adj_le_3_05 hs_lo,
        le_trans hs_hi (le_of_eq ext_major_3_05.symm), ?_, ?_⟩
      · simpa [external_t_start] using hz.1
      · simpa [external_t_start, external_t_length] using hz.2
    · refine Set.mem_union_left _ ?_
      refine ⟨le_trans int_minor_le_3_05 hs_lo,
        le_trans hs_hi int_outer_ge_3_05, ?_, ?_⟩
      · simpa [internal_t_start] using hz.1
      · simpa [internal_t_start, internal_t_length] using hz.2
  rcases hcl 3 0.5 1 (by norm_num) (by norm_num) (by norm_num) with he | hv
  · have hpt : ((1.3:ℝ), (0.2:ℝ), (0.5:ℝ))
        ∈ (Set.Icc (1.25:ℝ) 1.4 ×ˢ Set.Icc (0:ℝ) 0.5 ×ˢ Set.Icc (0:ℝ) 1) :=
      ⟨Set.mem_Icc.mpr ⟨by norm_num, by norm_num⟩,
       Set.mem_Icc.mpr ⟨by norm_num, by norm_num⟩,
       Set.mem_Icc.mpr ⟨by norm_num, by norm_num⟩⟩
    have := hBsub hpt
    rw [he] at this
    exact Set.not_mem_empty _ this
  · have hvolB : MeasureTheory.volume
        (Set.Icc (1.25:ℝ) 1.4 ×ˢ Set.Icc (0:ℝ) 0.5 ×ˢ Set.Icc (0:ℝ) 1)
        = ENNReal.ofReal 0.075 := by
      rw [MeasureTheory.Measure.volume_eq_prod, MeasureTheory.Measure.prod_prod,
        MeasureTheory.Measure.volume_eq_prod, MeasureTheory.Measure.prod_prod,
        Real.volume_Icc, Real.volume_Icc, Real.volume_Icc,
        ← ENNReal.ofReal_mul (by norm_num), ← ENNReal.ofReal_mul (by norm_num)]
      norm_num
    have hle : ENNReal.ofReal 0.075
        ≤ ENNReal.ofReal (external_epsilon 0.5 true + internal_epsilon 0.5 true) :=
      le_trans (le_trans (le_of_eq hvolB.symm) (MeasureTheory.measure_mono hBsub)) hv
    have hlt : ENNReal.ofReal (external_epsilon 0.5 true + internal_epsilon 0.5 true)
        < ENNReal.ofReal 0.075 :=
      (ENNReal.ofReal_lt_ofReal_iff (by norm_num)).mpr eps_sum_lt_3_05
    exact absurd (lt_of_lt_of_le hlt hle) (lt_irrefl _)

end

end MetricThreads
